import Mathlib

/-!
Verification of the run orchestrator and worker-pool execution model of the
`runner` package (`src/runner/requester.go`).

The development is a shallow embedding of `requester.go`:

* machine integers (`int`, `int64`) are modelled as `Nat` (the spec's invariants
  keep all the relevant quantities non-negative); Go's integer division, which
  panics on a zero divisor, is modelled by `goDiv` returning `Except GoPanic`;
* `grpc.ClientConn` values are identified by the index of the dial that created
  them; the outcome of `grpc.DialContext` is an oracle `Nat → Bool` giving the
  success of the k-th dial performed by a `Requester`;
* the `statsHandler` taps are modelled by their `id` and `ignore` flag;
* Go slices that the code compares against `nil` (`Requester.conns`) are
  modelled as `Option (List _)`, `none` standing for a nil slice;
* channel-based control flow (`Run`'s select loop, the pool's select loop) is
  modelled by explicit event traces processed sequentially, one event per
  channel receive; sending on a closed channel is a `GoPanic`;
* the JSON payload of the run configuration is modelled by a `JSONValue`
  syntax tree whose canonical rendering stands for the raw `data` bytes, and
  `encoding/json`'s `Unmarshal` into a slice of string-keyed maps and
  `Marshal` of such a map are modelled on that tree (`goUnmarshalArrObjMap`,
  `marshalObjMap`).
-/

namespace GhzRunner

/-! ## JSON payload model (for the `arrayJSONData` precomputation) -/

/-- Syntax tree of a JSON document. `obj` keeps its fields in source order
(duplicates allowed), matching the raw text of a payload. -/
inductive JSONValue where
  | obj : List (String × JSONValue) → JSONValue
  | arr : List JSONValue → JSONValue
  | str : String → JSONValue
  | num : Int → JSONValue
  | jbool : Bool → JSONValue
  | jnull : JSONValue

/-- Decimal digits of `n`, most significant first, accumulated in `acc`;
fuel-indexed so that the definition is structural. -/
def renderNatAux : Nat → Nat → List Char → List Char
  | 0, _, acc => acc
  | fuel + 1, n, acc =>
    let d := Char.ofNat (48 + n % 10)
    if n < 10 then d :: acc else renderNatAux fuel (n / 10) (d :: acc)

/-- Decimal rendering of a natural number. -/
def renderNat (n : Nat) : List Char :=
  renderNatAux (n + 1) n []

/-- JSON rendering of an integer. -/
def renderInt (i : Int) : List Char :=
  if i < 0 then '-' :: renderNat i.natAbs else renderNat i.natAbs

/-- JSON rendering of a string (escaping is not modelled: the payloads we
reason about are taken escape-free). -/
def renderString (s : String) : List Char :=
  '"' :: (s.data ++ ['"'])

mutual

/-- Canonical textual rendering of a JSON value: no whitespace, fields and
elements in order. `render v` models the raw bytes `RunConfig.data` holding
the text of the payload `v`. -/
def render : JSONValue → List Char
  | .obj fs => '\x7b' :: (renderFields fs ++ ['\x7d'])
  | .arr es => '[' :: (renderElems es ++ [']'])
  | .str s => renderString s
  | .num i => renderInt i
  | .jbool b => if b then ['t', 'r', 'u', 'e'] else ['f', 'a', 'l', 's', 'e']
  | .jnull => ['n', 'u', 'l', 'l']

/-- Rendering of the fields of a JSON object, comma separated. -/
def renderFields : List (String × JSONValue) → List Char
  | [] => []
  | [(k, v)] => renderString k ++ ':' :: render v
  | (k, v) :: rest => renderString k ++ ':' :: render v ++ ',' :: renderFields rest

/-- Rendering of the elements of a JSON array, comma separated. -/
def renderElems : List JSONValue → List Char
  | [] => []
  | [v] => render v
  | v :: rest => render v ++ ',' :: renderElems rest

end

/-- Model of `strings.IndexRune(string(c.data), '[') == 0` (requester.go:121):
true exactly when the first byte of the text is `[`. -/
def goIndexRuneZero (cs : List Char) : Bool :=
  match cs with
  | [] => false
  | c :: _ => c = '['

end GhzRunner

namespace GhzRunner

/-! ## Go round-trip of one array element
`json.Unmarshal` into a `map[string]interface` value keeps the last binding of
a duplicated key; a JSON `null` unmarshals to a nil map. `json.Marshal` of a
map emits its keys in sorted order. -/

/-- A Go `map[string]interface` value obtained by unmarshaling one array
element; `none` models the nil map produced by a JSON `null`. -/
def GoObjMap := Option (List (String × JSONValue))

/-- Map update: replaces the binding of `k` if present, appends it otherwise
(Go map assignment). -/
def mapSet : List (String × JSONValue) → String → JSONValue → List (String × JSONValue)
  | [], k, v => [(k, v)]
  | (k', v') :: rest, k, v =>
    if k' = k then (k, v) :: rest else (k', v') :: mapSet rest k v

/-- Insertion into a key-sorted field list. -/
def insertSortedField (kv : String × JSONValue) :
    List (String × JSONValue) → List (String × JSONValue)
  | [] => [kv]
  | x :: xs => if kv.1 < x.1 then kv :: x :: xs else x :: insertSortedField kv xs

/-- Sorts fields by key (insertion sort), modelling the sorted key order of
`json.Marshal` on a Go map. -/
def sortFields (fs : List (String × JSONValue)) : List (String × JSONValue) :=
  fs.foldr insertSortedField []

/-- Builds the Go map contents from a field list: later bindings of a
duplicated key overwrite earlier ones. -/
def goMapOf (fs : List (String × JSONValue)) : List (String × JSONValue) :=
  fs.foldl (fun m kv => mapSet m kv.1 kv.2) []

mutual

/-- Normalization a JSON value undergoes when round-tripped through Go's
dynamic representation: every object, at any depth, is deduplicated
(last binding wins) and its keys sorted. -/
def goNormalize : JSONValue → JSONValue
  | .obj fs => .obj (sortFields (goMapOf (goNormalizeFields fs)))
  | .arr es => .arr (goNormalizeElems es)
  | .str s => .str s
  | .num i => .num i
  | .jbool b => .jbool b
  | .jnull => .jnull

/-- Pointwise `goNormalize` on object fields. -/
def goNormalizeFields : List (String × JSONValue) → List (String × JSONValue)
  | [] => []
  | (k, v) :: rest => (k, goNormalize v) :: goNormalizeFields rest

/-- Pointwise `goNormalize` on array elements. -/
def goNormalizeElems : List JSONValue → List JSONValue
  | [] => []
  | v :: rest => goNormalize v :: goNormalizeElems rest

end

/-- Model of unmarshaling one element of the payload array into a
`map[string]interface` value: objects and `null` succeed, every other element
kind is a JSON type error. -/
def elemToObjMap : JSONValue → Except Unit GoObjMap
  | .obj fs => .ok (some fs)
  | .jnull => .ok none
  | _ => .error ()

/-- Sequential unmarshaling of the array elements; the first failing element
fails the whole `json.Unmarshal`. -/
def goUnmarshalElems : List JSONValue → Except Unit (List GoObjMap)
  | [] => .ok []
  | v :: rest =>
    match elemToObjMap v with
    | .error e => .error e
    | .ok g =>
      match goUnmarshalElems rest with
      | .error e => .error e
      | .ok gs => .ok (g :: gs)

/-- Model of `json.Unmarshal(c.data, &dat)` with `dat` a slice of
string-keyed maps (requester.go:122-125): the root must be an array and every
element an object or `null`. -/
def goUnmarshalArrObjMap : JSONValue → Except Unit (List GoObjMap)
  | .arr es => goUnmarshalElems es
  | _ => .error ()

/-- Model of `json.Marshal(d)` for one unmarshaled element `d`
(requester.go:130): a nil map marshals to `null`, otherwise the map is
rendered with sorted, deduplicated keys at every depth. `Marshal` cannot fail
on a value produced by `Unmarshal`, so the model is total. -/
def marshalObjMap : GoObjMap → List Char
  | none => ['n', 'u', 'l', 'l']
  | some fs => render (goNormalize (.obj fs))

end GhzRunner

namespace GhzRunner

/-! ## Run configuration and basic Go semantics -/

/-- The fields of `RunConfig` that the orchestration logic of `requester.go`
reads (the full configuration type lives outside `src/`; logging, security,
timeout and metadata fields are consumed only by external collaborators and
are omitted). The spec's invariants make `n`, `c` and `nConns` non-negative,
so they are carried as `Nat`. -/
structure RunConfig where
  n : Nat
  c : Nat
  nConns : Nat
  name : String
  zstop : String
  loadStrategy : String
  loadSchedule : String
  proto : String
  protoset : String
  call : String
  binary : Bool
  data : JSONValue

/-- Modelled from the spec: the constant of the concurrency load strategy
(`StrategyConcurrency`), defined outside `src/`; only its distinctness from
other strategy values matters here. -/
def StrategyConcurrency : String := "concurrency"

/-- Modelled from the spec: the constant of the constant load schedule
(`ScheduleConst`), defined outside `src/`. -/
def ScheduleConst : String := "const"

/-- Reason a run stopped. `ReasonNormalEnd` is the initial value in `Run`;
external values arrive on the stop channel and are passed through opaquely. -/
inductive StopReason where
  | normalEnd
  | external (tag : String)
deriving DecidableEq, Repr

/-- Go runtime faults the embedded code can raise. -/
inductive GoPanic where
  | divideByZero
  | sendOnClosed
deriving DecidableEq, Repr

/-- Go integer division: panics on a zero divisor, floor division otherwise
(all the dividends involved are non-negative). -/
def goDiv (a b : Nat) : Except GoPanic Nat :=
  if b = 0 then .error .divideByZero else .ok (a / b)

/-- Transport-level dial failure, carrying the index of the failed dial. -/
inductive GrpcError where
  | dialFail (idx : Nat)
deriving DecidableEq, Repr

/-! ## Connection pool (`openClientConns` / `closeClientConns` /
`newClientConn`) -/

/-- A `statsHandler` tap: its `id` (position in `Requester.handlers`) and its
`Ignore` flag. -/
structure Tap where
  id : Nat
  ignore : Bool
deriving DecidableEq, Repr

/-- The pool-related state of a `Requester`: the `conns` slice (`none` models
a nil slice), the `handlers` slice, how many dials this requester has
performed (the outcome oracle is indexed by it), and the log of connections
whose `Close` was called. -/
structure PoolState where
  conns : Option (List Nat)
  handlers : List Tap
  dialCount : Nat
  closedIds : List Nat
deriving DecidableEq, Repr

/-- The connections currently held by the pool (a nil slice holds none). -/
def poolConns (s : PoolState) : List Nat :=
  s.conns.getD []

/-- Pool state of a freshly constructed `Requester` (requester.go:63-68):
an empty, non-nil `conns` slice and no handlers. -/
def initPool : PoolState :=
  { conns := some [], handlers := [], dialCount := 0, closedIds := [] }

/-- Model of `newClientConn(withStatsHandler)` (requester.go:265-316): when
`withStatsHandler` is set, a fresh tap with `id = len(handlers)` is appended
to `handlers` before dialing; then the dial either yields a connection
(identified by its dial index) or fails. The dial oracle gives the outcome of
each dial. -/
def newClientConn (withStatsHandler : Bool) (dialOk : Nat → Bool) (s : PoolState) :
    Except GrpcError Nat × PoolState :=
  let s₁ :=
    if withStatsHandler then
      { s with handlers := s.handlers ++ [{ id := s.handlers.length, ignore := false }] }
    else s
  let d := s₁.dialCount
  let s₂ := { s₁ with dialCount := d + 1 }
  if dialOk d then (.ok d, s₂) else (.error (.dialFail d), s₂)

/-- The dialing loop of `openClientConns` (requester.go:231-242): runs the
given number of iterations, appending each new connection to `conns`; the
first dial failure returns immediately, keeping the connections appended so
far. -/
def openLoop (dialOk : Nat → Bool) : Nat → PoolState → Except GrpcError Unit × PoolState
  | 0, s => (.ok (), s)
  | k + 1, s =>
    match newClientConn true dialOk s with
    | (.error e, s') => (.error e, s')
    | (.ok c, s') => openLoop dialOk k { s' with conns := some (poolConns s' ++ [c]) }

/-- Model of `openClientConns` (requester.go:223-245): if `conns` already
holds exactly `nConns` connections they are returned unchanged; otherwise
`nConns` new connections are dialed and appended, aborting on the first
failure. -/
def openClientConns (cfg : RunConfig) (dialOk : Nat → Bool) (s : PoolState) :
    Except GrpcError (List Nat) × PoolState :=
  if (poolConns s).length = cfg.nConns then (.ok (poolConns s), s)
  else
    match openLoop dialOk cfg.nConns s with
    | (.ok _, s') => (.ok (poolConns s'), s')
    | (.error e, s') => (.error e, s')

/-- Model of `closeClientConns` (requester.go:247-263): a nil `conns` slice
is a no-op; otherwise every held connection is closed (errors ignored) and
the slice is set to nil. -/
def closeClientConns (s : PoolState) : PoolState :=
  match s.conns with
  | none => s
  | some cs => { s with closedIds := s.closedIds ++ cs, conns := none }

/-! ## Requester construction (`newRequester`) -/

/-- The parts of a resolved `desc.MethodDescriptor` that `requester.go`
reads: its name, whether the method is client-streaming and whether
`dynamic.NewMessage` on its input type is non-nil. -/
structure MethodDescriptor where
  mname : String
  clientStreaming : Bool
  hasInputType : Bool
deriving DecidableEq, Repr

/-- Construction-time errors of `newRequester`. -/
inductive ReqError where
  | resolve (msg : String)
  | dial (e : GrpcError)
  | noInputType (mname : String)
  | jsonUnmarshal
deriving DecidableEq, Repr

/-- Model of the `arrayJSONData` precomputation (requester.go:118-137):
for a non-binary payload of a non-client-streaming method whose text begins
with `[`, the payload is unmarshaled as an array of objects and each element
re-marshaled on its own; an unmarshal failure fails the construction. `none`
models the nil slice left in every other case. -/
def computeArrayJSONData (cfg : RunConfig) (mtd : MethodDescriptor) :
    Except ReqError (Option (List (List Char))) :=
  if !cfg.binary && !mtd.clientStreaming then
    if goIndexRuneZero (render cfg.data) then
      match goUnmarshalArrObjMap cfg.data with
      | .error _ => .error .jsonUnmarshal
      | .ok dat => .ok (some (dat.map marshalObjMap))
    else .ok none
  else .ok none

/-- Modelled from the spec: per-call payload selection in the Worker
(worker.go is not under `src/`): a call observing global counter value `k`
uses entry `k mod len(table)` of the precomputed table; an empty table
selects nothing (the raw payload is used instead). -/
def selectArrayJSONData (table : List (List Char)) (k : Nat) : Option (List Char) :=
  if table.length = 0 then none else table.get? (k % table.length)

/-- Outcomes of the three descriptor-resolution collaborators
(`protodesc.GetMethodDescFromProto` / `FromProtoSet` / `FromReflect`, all
outside the orchestration layer) and of the dial of the transient reflection
connection. -/
structure ResolveEnv where
  fromProto : Except String MethodDescriptor
  fromProtoset : Except String MethodDescriptor
  fromReflect : Except String MethodDescriptor
  reflectDialOk : Bool

/-- Which descriptor-resolution strategy `newRequester` ran. -/
inductive Strategy where
  | protoFile
  | protosetFile
  | reflection
deriving DecidableEq, Repr

/-- Observable actions of the resolution phase of `newRequester`: the
strategies run, whether a transient reflection connection was dialed, whether
it was requested with a stats handler, and whether it was closed by the time
`newRequester` returned. -/
structure ResolutionLog where
  used : List Strategy
  transientDialed : Bool
  transientStats : Bool
  transientClosed : Bool
deriving DecidableEq, Repr

/-- Model of the strategy selection of `newRequester` (requester.go:70-103):
a non-empty `proto` path wins, else a non-empty `protoset` path, else a
transient connection is dialed without a stats handler (`newClientConn(false)`)
and closed by a deferred `Close` once `newRequester` returns; a failed
transient dial returns before the deferred close is installed. -/
def resolveMtd (cfg : RunConfig) (env : ResolveEnv) :
    Except ReqError MethodDescriptor × ResolutionLog :=
  if cfg.proto ≠ "" then
    (env.fromProto.mapError .resolve,
     { used := [.protoFile], transientDialed := false, transientStats := false,
       transientClosed := false })
  else if cfg.protoset ≠ "" then
    (env.fromProtoset.mapError .resolve,
     { used := [.protosetFile], transientDialed := false, transientStats := false,
       transientClosed := false })
  else if env.reflectDialOk then
    (env.fromReflect.mapError .resolve,
     { used := [.reflection], transientDialed := true, transientStats := false,
       transientClosed := true })
  else
    (.error (.dial (.dialFail 0)),
     { used := [.reflection], transientDialed := true, transientStats := false,
       transientClosed := false })

/-- The state of a freshly constructed `Requester`. -/
structure ReqState where
  mtd : MethodDescriptor
  arrayJSONData : Option (List (List Char))
  pool : PoolState
deriving Repr

/-- Model of `newRequester` (requester.go:58-140): resolves the descriptor by
exactly one strategy, checks the input type, precomputes `arrayJSONData`, and
never opens a load-generation connection (the pool stays as freshly created:
empty `conns`, no handlers). -/
def newRequester (cfg : RunConfig) (env : ResolveEnv) :
    Except ReqError ReqState × ResolutionLog :=
  match resolveMtd cfg env with
  | (.error e, log) => (.error e, log)
  | (.ok mtd, log) =>
    if !mtd.hasInputType then (.error (.noInputType mtd.mname), log)
    else
      match computeArrayJSONData cfg mtd with
      | .error e => (.error e, log)
      | .ok table => (.ok { mtd := mtd, arrayJSONData := table, pool := initPool }, log)

end GhzRunner

namespace GhzRunner

/-! ## Constant-concurrency worker pool (`runConstConcurrencyWorkers`) -/

/-- Identity string of a worker (requester.go:334-338): `g` + concurrency
index + `c` + connection counter, prefixed by `name:` when a run name is
configured. -/
def mkWorkerID (name : String) (i n : Nat) : String :=
  let wid := "g" ++ Nat.repr i ++ "c" ++ Nat.repr n
  if name.length > 0 then name ++ ":" ++ wid else wid

/-- A worker created by the pool: the index into `Requester.stubs` it is
bound to and its identity string. -/
structure WorkerSpec where
  stubIdx : Nat
  workerID : String
deriving DecidableEq, Repr

/-- The worker-creation loop of `runConstConcurrencyWorkers`
(requester.go:331-371): `rem` iterations remain, `i` is the concurrency
counter and `n` the connection counter, incremented each iteration and reset
to `0` when it reaches `nConns`. Worker `i` is bound to `stubs[n]`. -/
def mkWorkersFrom (cfg : RunConfig) : Nat → Nat → Nat → List WorkerSpec
  | 0, _, _ => []
  | rem + 1, i, n =>
    { stubIdx := n, workerID := mkWorkerID cfg.name i n } ::
      mkWorkersFrom cfg rem (i + 1) (if n + 1 = cfg.nConns then 0 else n + 1)

/-- The `c` workers created by the pool. -/
def mkWorkers (cfg : RunConfig) : List WorkerSpec :=
  mkWorkersFrom cfg cfg.c 0 0

/-- Model of the `grpcdynamic.NewStub(cc[n])` loop of `Run`
(requester.go:153-157): stub `j` is the caller handle built on connection
`j`. -/
def buildStubs (conns : List Nat) : List Nat :=
  conns.map (fun c => c)

/-- Model of the sequential prefix of `runConstConcurrencyWorkers`
(requester.go:318-371): `nReqPerWorker := n / c` is computed *before* the
`c == 0` guard, so a zero concurrency faults with a division-by-zero panic
and the guard never runs; for positive `c` the pool creates the `c` workers,
each with the per-worker quota `n / c`. `ok none` is the `return nil` of the
guard. -/
def runConstConcurrencyWorkers (cfg : RunConfig) :
    Except GoPanic (Option (List WorkerSpec × Nat)) :=
  match goDiv cfg.n cfg.c with
  | .error e => .error e
  | .ok nReqPerWorker =>
    if cfg.c = 0 then .ok none
    else .ok (some (mkWorkers cfg, nReqPerWorker))

/-- The continuation predicate handed to each worker (requester.go:367-369):
continue exactly while the worker's completed-request count is below
`nReqPerWorker`; the other arguments are ignored. -/
def workerContinue (nReqPerWorker : Nat) (_wid : String) (_err : Option String)
    (reqCount : Nat) (_duration : Nat) : Bool :=
  reqCount < nReqPerWorker

/-- Modelled from the spec: the call loop of `Worker.runWorker` (worker.go is
not under `src/`): the loop re-checks the continuation predicate on the
worker's current completed-request count, issues one call per iteration, and
returns the number of calls issued once the predicate fails. Fuel-indexed to
stay structural; any fuel at least the quota is enough. -/
def runWorkerCalls (keepGoing : Nat → Bool) : Nat → Nat → Nat
  | 0, count => count
  | fuel + 1, count =>
    if keepGoing count then runWorkerCalls keepGoing fuel (count + 1) else count

/-- Number of calls worker `w` issues on a run that is never stopped: its
call loop driven by the continuation predicate with quota `q`. -/
def workerIssuedCalls (cfg : RunConfig) (q : Nat) (w : WorkerSpec) : Nat :=
  runWorkerCalls (fun k => workerContinue q w.workerID none k 0) cfg.n 0

/-- Total number of calls issued over a whole run that completes without a
stop signal: the sum of every worker's issued calls. -/
def totalIssuedCalls (cfg : RunConfig) : Nat :=
  match runConstConcurrencyWorkers cfg with
  | .ok (some (ws, q)) => (ws.map (workerIssuedCalls cfg q)).sum
  | _ => 0

/-! ## Pool event loop: stop propagation (`finishWorkers` and the select
loop, requester.go:384-412) -/

/-- Synchronization state of one worker as the pool sees it: its active
flag, how many values were ever sent into its `done` channel, and whether
that channel has been closed. -/
structure WorkerSync where
  active : Bool
  signals : Nat
  closed : Bool
deriving DecidableEq, Repr

/-- Events the pool's select loop can observe: a value on `stop`, a worker
finishing its quota naturally, and the aggregated result on `done`. -/
inductive PoolEvent where
  | stop
  | complete (i : Nat)
  | done
deriving DecidableEq, Repr

/-- Sending a value into a worker's `done` channel; sending on a closed
channel is a runtime panic. -/
def sendDone (w : WorkerSync) : Except GoPanic WorkerSync :=
  if w.closed then .error .sendOnClosed else .ok { w with signals := w.signals + 1 }

/-- The body of `finishWorkers` for one worker (requester.go:385-393): an
active worker is marked inactive and sent one stop value; an inactive worker
is skipped. -/
def finishOne (w : WorkerSync) : Except GoPanic WorkerSync :=
  if w.active then sendDone { w with active := false } else .ok w

/-- Model of `finishWorkers` (requester.go:384-394): every worker is visited
once. -/
def finishWorkers : List WorkerSync → Except GoPanic (List WorkerSync)
  | [] => .ok []
  | w :: ws =>
    match finishOne w with
    | .error e => .error e
    | .ok w' =>
      match finishWorkers ws with
      | .error e => .error e
      | .ok ws' => .ok (w' :: ws')

/-- Modelled from the spec: natural quota completion of worker `i` (worker.go
is not under `src/`); conservatively the worker may clear its own active
flag when its call loop ends, which only removes it from the set
`finishWorkers` signals. -/
def markComplete : Nat → List WorkerSync → List WorkerSync
  | _, [] => []
  | 0, w :: ws => { w with active := false } :: ws
  | i + 1, w :: ws => w :: markComplete i ws

/-- The `close(wrk.done)` sweep of the pool's `done` branch
(requester.go:402-407). -/
def closeAllDone (ws : List WorkerSync) : List WorkerSync :=
  ws.map fun w => { w with closed := true }

/-- Synchronization state of the `c` freshly created workers: all active
(requester.go:355), none signaled, channels open. -/
def initWorkers (c : Nat) : List WorkerSync :=
  List.replicate c { active := true, signals := 0, closed := false }

/-- The pool's select loop (requester.go:396-412) over an explicit event
trace: a `stop` value runs `finishWorkers`; the aggregated `done` result
closes every worker's channel and returns; an exhausted trace means the loop
is still blocked in `select`. -/
def poolLoop (ws : List WorkerSync) : List PoolEvent → Except GoPanic (List WorkerSync)
  | [] => .ok ws
  | .stop :: rest =>
    match finishWorkers ws with
    | .error e => .error e
    | .ok ws' => poolLoop ws' rest
  | .complete i :: rest => poolLoop (markComplete i ws) rest
  | .done :: _ => .ok (closeAllDone ws)

/-! ## Run orchestration (`Run`, requester.go:144-221) -/

/-- Orchestrator state that `Run`'s event loop mutates: the pool state, the
recorded stop reason, and how many values were forwarded into the pool's
`stop` channel. -/
structure OrchState where
  pool : PoolState
  stopReason : StopReason
  stopSignals : Nat
deriving DecidableEq, Repr

/-- The `case reason := <-stopCh` branch of `Run` (requester.go:181-193):
records the received reason, forwards one value into the pool's stop
channel, and applies the stop-close policy: `close` closes all connections;
`ignore` first sets every tap's `Ignore` flag and then closes all
connections; any other value leaves the pool untouched. -/
def runOnStop (cfg : RunConfig) (reason : StopReason) (s : OrchState) : OrchState :=
  let s₁ := { s with stopReason := reason, stopSignals := s.stopSignals + 1 }
  if cfg.zstop = "close" then
    { s₁ with pool := closeClientConns s₁.pool }
  else if cfg.zstop = "ignore" then
    let pool₁ :=
      { s₁.pool with handlers := s₁.pool.handlers.map fun h => { h with ignore := true } }
    { s₁ with pool := closeClientConns pool₁ }
  else s₁

/-- Events `Run`'s select loop can observe: a stop reason on the external
channel, or the pool's aggregated error on `done`. -/
inductive RunEvent where
  | stopRecv (r : StopReason)
  | doneRecv (err : Option String)
deriving DecidableEq, Repr

/-- Whether an event is the pool-completion event. -/
def isDoneEvent : RunEvent → Bool
  | .doneRecv _ => true
  | .stopRecv _ => false

/-- Model of `Run`'s event loop (requester.go:179-221) over an explicit
event trace: a stop reason runs the stop branch and the loop continues; the
pool-completion event finalizes and returns the recorded stop reason and the
pool's error; an exhausted trace means `Run` is still blocked in `select`. -/
def runLoop (cfg : RunConfig) (s : OrchState) :
    List RunEvent → Option (StopReason × Option String)
  | [] => none
  | .stopRecv r :: rest => runLoop cfg (runOnStop cfg r s) rest
  | .doneRecv e :: _ => some (s.stopReason, e)

/-- A trace is producible under `cfg` when every pool-completion event on it
could actually have been sent: the goroutine of requester.go:167-173 sends on
`done` only when the load strategy is `StrategyConcurrency` and the schedule
`ScheduleConst`. -/
def doneProducible (cfg : RunConfig) (tr : List RunEvent) : Prop :=
  ∀ ev ∈ tr, isDoneEvent ev = true →
    cfg.loadStrategy = StrategyConcurrency ∧ cfg.loadSchedule = ScheduleConst

end GhzRunner

namespace GhzRunner

/-! ## Concrete run configurations for witnesses and counterexamples -/

/-- A baseline configuration; individual claims adjust the fields they
exercise. -/
def baseConfig : RunConfig :=
  { n := 0, c := 0, nConns := 1, name := "", zstop := "",
    loadStrategy := StrategyConcurrency, loadSchedule := ScheduleConst,
    proto := "", protoset := "", call := "helloworld.Greeter.SayHello",
    binary := false, data := JSONValue.obj [] }

/-- A run with five requests and zero concurrency. -/
def zeroConcConfig : RunConfig :=
  { baseConfig with n := 5, c := 0 }

/-- Two connections, so a mid-loop dial failure is observable. -/
def twoConnConfig : RunConfig :=
  { baseConfig with nConns := 2 }

/-- Dial oracle whose first dial succeeds and whose second fails. -/
def failSecondDial : Nat → Bool := fun d => d == 0

/-- Dial oracle under which every dial succeeds. -/
def allDialsOk : Nat → Bool := fun _ => true

/-- The pool state after successfully opening one connection from scratch. -/
def onePool : PoolState :=
  { conns := some [0], handlers := [{ id := 0, ignore := false }],
    dialCount := 1, closedIds := [] }

/-- A run of 103 requests over 10 workers (quota 10, remainder 3). -/
def quotaConfig : RunConfig :=
  { baseConfig with n := 103, c := 10 }

/-- Five workers over two connections, with a run name. -/
def bindConfig : RunConfig :=
  { baseConfig with n := 10, c := 5, nConns := 2, name := "run" }

/-- Stop-close-policy `close`. -/
def closePolicyConfig : RunConfig :=
  { baseConfig with zstop := "close" }

/-- A strategy/schedule combination other than constant-concurrency /
constant-schedule. -/
def lineStrategyConfig : RunConfig :=
  { baseConfig with loadStrategy := "line" }

/-- Orchestrator state holding one open connection. -/
def oneOrchState : OrchState :=
  { pool := onePool, stopReason := StopReason.normalEnd, stopSignals := 0 }

/-- A non-binary payload whose textual root is a JSON array but whose
elements are numbers, not objects. -/
def numsArrayConfig : RunConfig :=
  { baseConfig with data := JSONValue.arr [JSONValue.num 1, JSONValue.num 2] }

/-- A non-binary payload whose textual root is a JSON array of an object and
a null. -/
def objsArrayConfig : RunConfig :=
  { baseConfig with
    data := JSONValue.arr [JSONValue.obj [("a", JSONValue.num 1)], JSONValue.jnull] }

/-- A unary method with a valid input type. -/
def unaryMethod : MethodDescriptor :=
  { mname := "SayHello", clientStreaming := false, hasInputType := true }

/-- Resolution environment in which every strategy would succeed. -/
def allOkEnv : ResolveEnv :=
  { fromProto := .ok unaryMethod, fromProtoset := .ok unaryMethod,
    fromReflect := .ok unaryMethod, reflectDialOk := true }

/-- Configuration that supplies an explicit descriptor file. -/
def protoConfig : RunConfig :=
  { baseConfig with proto := "greeter.proto" }

/-- Invariant of a worker's synchronization state while the pool's select
loop is still processing events: its channel is not closed, it was signaled
at most once, and not at all while still marked active. -/
def WInv (w : WorkerSync) : Prop :=
  w.closed = false ∧ w.signals ≤ 1 ∧ (w.active = true → w.signals = 0)

end GhzRunner

namespace GhzRunner

/-! ## Lemmas: first character of a rendered JSON value -/

/-- Digit accumulation either leaves the accumulator or produces a leading
decimal digit. -/
theorem renderNatAux_shape : ∀ (fuel n : Nat) (acc : List Char),
    renderNatAux fuel n acc = acc ∨
      ∃ m, m < 10 ∧ ∃ rest, renderNatAux fuel n acc = Char.ofNat (48 + m) :: rest := by
  intro fuel
  induction fuel with
  | zero => intro n acc; exact Or.inl rfl
  | succ fuel ih =>
    intro n acc
    by_cases h : n < 10
    · refine Or.inr ⟨n % 10, Nat.mod_lt n (by omega), acc, ?_⟩
      simp [renderNatAux, h]
    · rcases ih (n / 10) (Char.ofNat (48 + n % 10) :: acc) with h1 | ⟨m, hm, rest, h1⟩
      · refine Or.inr ⟨n % 10, Nat.mod_lt n (by omega), acc, ?_⟩
        simp [renderNatAux, h, h1]
      · refine Or.inr ⟨m, hm, rest, ?_⟩
        simp [renderNatAux, h, h1]

/-- A rendered natural number starts with a decimal digit. -/
theorem renderNat_head (n : Nat) :
    ∃ m, m < 10 ∧ ∃ rest, renderNat n = Char.ofNat (48 + m) :: rest := by
  unfold renderNat
  by_cases h : n < 10
  · exact ⟨n % 10, Nat.mod_lt n (by omega), [], by simp [renderNatAux, h]⟩
  · rcases renderNatAux_shape n (n / 10) [Char.ofNat (48 + n % 10)] with h1 | ⟨m, hm, rest, h1⟩
    · exact ⟨n % 10, Nat.mod_lt n (by omega), [], by simp [renderNatAux, h, h1]⟩
    · exact ⟨m, hm, rest, by simp [renderNatAux, h, h1]⟩

/-- No decimal digit is the character `[`. -/
theorem digitChar_ne_bracket (m : Nat) (hm : m < 10) : Char.ofNat (48 + m) ≠ '[' := by
  interval_cases m <;> decide

/-- The rendered text of a JSON value begins with `[` exactly when the value
is an array: the first-byte test of requester.go:121 recognizes precisely the
array payloads (on canonical, whitespace-free text). -/
theorem goIndexRuneZero_render (v : JSONValue) :
    goIndexRuneZero (render v) = true ↔ ∃ es, v = JSONValue.arr es := by
  cases v with
  | obj fs => simp [render, goIndexRuneZero]
  | arr es => simp [render, goIndexRuneZero]
  | str s => simp [render, renderString, goIndexRuneZero]
  | num i =>
    constructor
    · intro h
      exfalso
      unfold render renderInt at h
      by_cases hneg : i < 0
      · simp [hneg, goIndexRuneZero] at h
      · obtain ⟨m, hm, rest, hr⟩ := renderNat_head i.natAbs
        simp only [hneg, if_false, hr, goIndexRuneZero, decide_eq_true_eq] at h
        exact digitChar_ne_bracket m hm h
    · rintro ⟨es, h⟩
      simp at h
  | jbool b => cases b <;> simp [render, goIndexRuneZero]
  | jnull => simp [render, goIndexRuneZero]

end GhzRunner

namespace GhzRunner

/-! ## Lemmas: connection pool -/

/-- If the k-th dial of an opening loop is the first to fail, the loop
returns that dial's error and the pool has gained exactly the k connections
dialed before it. -/
theorem openLoop_fail (dialOk : Nat → Bool) : ∀ (k m : Nat) (s : PoolState), k < m →
    dialOk (s.dialCount + k) = false →
    (∀ j, j < k → dialOk (s.dialCount + j) = true) →
    ∃ s', openLoop dialOk m s = (.error (.dialFail (s.dialCount + k)), s') ∧
      poolConns s' = poolConns s ++ List.range' s.dialCount k := by
  intro k
  induction k with
  | zero =>
    intro m s hm hfail _
    cases m with
    | zero => omega
    | succ m =>
      refine ⟨{ conns := s.conns,
                handlers := s.handlers ++ [{ id := s.handlers.length, ignore := false }],
                dialCount := s.dialCount + 1,
                closedIds := s.closedIds }, ?_, ?_⟩
      · have hf : dialOk s.dialCount = false := by simpa using hfail
        simp only [openLoop, newClientConn]
        simp [hf]
      · simp [poolConns]
  | succ k ih =>
    intro m s hm hfail hpre
    cases m with
    | zero => omega
    | succ m =>
      have h0 : dialOk s.dialCount = true := by
        have := hpre 0 (by omega)
        simpa using this
      have hstep :
          openLoop dialOk (m + 1) s =
            openLoop dialOk m
              { conns := some (poolConns s ++ [s.dialCount]),
                handlers := s.handlers ++ [{ id := s.handlers.length, ignore := false }],
                dialCount := s.dialCount + 1,
                closedIds := s.closedIds } := by
        simp only [openLoop, newClientConn]
        simp [h0, poolConns]
      set s₃ : PoolState :=
        { conns := some (poolConns s ++ [s.dialCount]),
          handlers := s.handlers ++ [{ id := s.handlers.length, ignore := false }],
          dialCount := s.dialCount + 1,
          closedIds := s.closedIds } with hs₃
      have hfail' : dialOk (s₃.dialCount + k) = false := by
        have : s₃.dialCount + k = s.dialCount + (k + 1) := by simp [hs₃]; omega
        rw [this]; exact hfail
      have hpre' : ∀ j, j < k → dialOk (s₃.dialCount + j) = true := by
        intro j hj
        have : s₃.dialCount + j = s.dialCount + (j + 1) := by simp [hs₃]; omega
        rw [this]; exact hpre (j + 1) (by omega)
      obtain ⟨s', h1, h2⟩ := ih m s₃ (by omega) hfail' hpre'
      refine ⟨s', ?_, ?_⟩
      · rw [hstep, h1]
        have : s₃.dialCount + k = s.dialCount + (k + 1) := by simp [hs₃]; omega
        rw [this]
      · rw [h2]
        have hc : poolConns s₃ = poolConns s ++ [s.dialCount] := by
          simp [hs₃, poolConns]
        rw [hc, List.append_assoc]
        have : List.range' s.dialCount (k + 1) = s.dialCount :: List.range' (s.dialCount + 1) k := by
          rw [List.range'_succ]
        rw [this]
        simp [hs₃]

/-- A successful opening loop of `m` dials grows the pool by exactly `m`
connections. -/
theorem openLoop_ok (dialOk : Nat → Bool) : ∀ (m : Nat) (s : PoolState) (u : Unit)
    (s' : PoolState), openLoop dialOk m s = (.ok u, s') →
    (poolConns s').length = (poolConns s).length + m := by
  intro m
  induction m with
  | zero =>
    intro s u s' h
    simp only [openLoop] at h
    cases h
    simp
  | succ m ih =>
    intro s u s' h
    simp only [openLoop, newClientConn] at h
    cases hd : dialOk s.dialCount with
    | true =>
      simp [hd] at h
      have := ih _ _ _ h
      rw [this]
      simp [poolConns]
      omega
    | false =>
      simp [hd] at h

end GhzRunner

namespace GhzRunner

/-! ## Claims C1, C2, C3 -/

/-- Claim C1. The claim states that a run configured with `c == 0` makes the
constant-concurrency pool do nothing and report no error, without faulting,
and the guard of requester.go:321-323 shows that this is the intended
behavior; but `nReqPerWorker := b.config.n / b.config.c` (requester.go:319)
is evaluated before that guard, so with `c == 0` the code panics with an
integer division by zero and the guard is unreachable. The theorem evaluates
the model at such a configuration. -/
theorem runConstConcurrency_div_by_zero_c1 :
    runConstConcurrencyWorkers zeroConcConfig = .error GoPanic.divideByZero := by
  rfl

/-- Claim C2, counterexample. With two configured connections and a dial
oracle whose second dial fails, `openClientConns` returns the dial error,
but the requester's `conns` slice keeps the first, successfully dialed
connection: the pool is a non-empty prefix of the dialed connections, not
empty as the claim states. -/
theorem openClientConns_partial_pool_c2_counterexample :
    (openClientConns twoConnConfig failSecondDial initPool).1 =
      .error (GrpcError.dialFail 1) ∧
    poolConns (openClientConns twoConnConfig failSecondDial initPool).2 = [0] ∧
    poolConns (openClientConns twoConnConfig failSecondDial initPool).2 ≠ [] :=
  ⟨rfl, rfl, by decide⟩

/-- Claim C2 (amended): if the k-th dial performed by `openClientConns` is
the first to fail, the operation aborts and returns that dial's error — the
caller receives no connection list — but the requester's internal pool
retains exactly the prefix of connections successfully dialed before the
failure (it is not cleared). -/
theorem openClientConns_dial_failure_c2_amended (cfg : RunConfig) (dialOk : Nat → Bool)
    (s : PoolState) (k : Nat)
    (hlen : (poolConns s).length ≠ cfg.nConns) (hk : k < cfg.nConns)
    (hfail : dialOk (s.dialCount + k) = false)
    (hpre : ∀ j, j < k → dialOk (s.dialCount + j) = true) :
    (openClientConns cfg dialOk s).1 = .error (.dialFail (s.dialCount + k)) ∧
    poolConns (openClientConns cfg dialOk s).2 = poolConns s ++ List.range' s.dialCount k := by
  obtain ⟨s', h1, h2⟩ := openLoop_fail dialOk k cfg.nConns s hk hfail hpre
  unfold openClientConns
  rw [if_neg hlen, h1]
  exact ⟨rfl, h2⟩

/-- Witness for the amended claim C2: two connections, the second dial
fails; the error of dial 1 is returned and the pool retains connection 0. -/
theorem openClientConns_dial_failure_c2_amended_witness :
    (openClientConns twoConnConfig failSecondDial initPool).1 =
      .error (.dialFail (initPool.dialCount + 1)) ∧
    poolConns (openClientConns twoConnConfig failSecondDial initPool).2 =
      poolConns initPool ++ List.range' initPool.dialCount 1 :=
  openClientConns_dial_failure_c2_amended twoConnConfig failSecondDial initPool 1
    (by decide) (by decide) (by decide) (by decide)

/-- Claim C3: a second `openClientConns` without an intervening close
returns the identical connection set and leaves the whole requester state
(and in particular the dial count: no new dial) unchanged, for any dial
oracle; `closeClientConns` on a pool holding no connections closes nothing
and leaves the pool empty; and `closeClientConns` is idempotent on every
state, so calling it twice in a row equals calling it once and never errors
(the model is a total function into states, with no panic outcome). -/
theorem pool_lifecycle_idempotent_c3 (cfg : RunConfig) (dialOk dialOk' : Nat → Bool)
    (s : PoolState) (cs : List Nat) (s₁ t u : PoolState)
    (hstart : (poolConns s).length = 0 ∨ (poolConns s).length = cfg.nConns)
    (hopen : openClientConns cfg dialOk s = (.ok cs, s₁))
    (ht : poolConns t = []) :
    openClientConns cfg dialOk' s₁ = (.ok cs, s₁) ∧
    (closeClientConns t).closedIds = t.closedIds ∧
    poolConns (closeClientConns t) = [] ∧
    closeClientConns (closeClientConns u) = closeClientConns u := by
  refine ⟨?_, ?_, ?_, ?_⟩
  · unfold openClientConns at hopen ⊢
    by_cases hl : (poolConns s).length = cfg.nConns
    · rw [if_pos hl] at hopen
      simp only [Prod.mk.injEq, Except.ok.injEq] at hopen
      obtain ⟨h1, h2⟩ := hopen
      subst h2
      rw [if_pos hl, h1]
    · rw [if_neg hl] at hopen
      have hz : (poolConns s).length = 0 := by
        rcases hstart with h | h
        · exact h
        · exact absurd h hl
      rcases hres : openLoop dialOk cfg.nConns s with ⟨res, s'⟩
      rw [hres] at hopen
      cases res with
      | error e => simp at hopen
      | ok uu =>
        simp only [Prod.mk.injEq, Except.ok.injEq] at hopen
        obtain ⟨h1, h2⟩ := hopen
        subst h2
        have hlen' : (poolConns s').length = cfg.nConns := by
          have := openLoop_ok dialOk cfg.nConns s uu s' hres
          omega
        rw [if_pos hlen', h1]
  · unfold closeClientConns
    cases hc : t.conns with
    | none => rfl
    | some cs' =>
      have : cs' = [] := by
        rw [poolConns, hc] at ht
        simpa using ht
      simp [this]
  · unfold closeClientConns
    cases hc : t.conns with
    | none =>
      rw [poolConns, hc] at ht
      simp [poolConns, hc, ht]
    | some cs' => simp [poolConns]
  · unfold closeClientConns
    cases hc : u.conns with
    | none => simp [hc]
    | some cs' => simp

/-- Witness for claim C3: a one-connection pool opened from scratch; the
second open returns the same single connection untouched, and closing the
empty initial pool (and double-closing the opened one) is a no-op. -/
theorem pool_lifecycle_idempotent_c3_witness :
    openClientConns baseConfig allDialsOk onePool = (.ok [0], onePool) ∧
    (closeClientConns initPool).closedIds = initPool.closedIds ∧
    poolConns (closeClientConns initPool) = [] ∧
    closeClientConns (closeClientConns onePool) = closeClientConns onePool :=
  pool_lifecycle_idempotent_c3 baseConfig allDialsOk allDialsOk initPool [0] onePool
    initPool onePool (Or.inl (by decide)) (by rfl) (by decide)

end GhzRunner

namespace GhzRunner

/-! ## Claims C4, C5 -/

/-- The worker call loop issues exactly `q` calls when driven by the
quota-`q` continuation predicate, for any starting count at most `q` and any
sufficient fuel. -/
theorem runWorkerCalls_quota (q : Nat) : ∀ (fuel count : Nat), count ≤ q →
    q ≤ count + fuel →
    runWorkerCalls (fun k => decide (k < q)) fuel count = q := by
  intro fuel
  induction fuel with
  | zero =>
    intro count h1 h2
    have : count = q := by omega
    simpa [runWorkerCalls] using this
  | succ fuel ih =>
    intro count h1 h2
    by_cases h : count < q
    · simp only [runWorkerCalls, decide_eq_true_eq, if_pos h]
      exact ih (count + 1) (by omega) (by omega)
    · have : count = q := by omega
      simp [runWorkerCalls, h, this]

/-- Summing a function that is constant on a list. -/
theorem sum_map_const_on {α : Type} (q : Nat) : ∀ (l : List α) (f : α → Nat),
    (∀ a ∈ l, f a = q) → (l.map f).sum = l.length * q := by
  intro l
  induction l with
  | nil => intro f _; simp
  | cons a l ih =>
    intro f h
    simp only [List.map_cons, List.sum_cons, List.length_cons]
    rw [h a (by simp), ih f (fun b hb => h b (by simp [hb]))]
    ring

/-- The worker-creation loop makes exactly as many workers as it has
iterations left. -/
theorem mkWorkersFrom_length (cfg : RunConfig) : ∀ (rem i n : Nat),
    (mkWorkersFrom cfg rem i n).length = rem := by
  intro rem
  induction rem with
  | zero => intro i n; rfl
  | succ rem ih => intro i n; simp [mkWorkersFrom, ih]

/-- Claim C4: with positive concurrency, the continuation predicate of
requester.go:367-369 holds exactly while the worker's completed count is
below the fixed quota `n / c`; the pool hands every one of its `c` workers
that same quota, so the total number of calls issued by a run that completes
without a stop signal is `c * (n / c)`, which falls short of `n` by exactly
the never-issued remainder `n mod c`. -/
theorem worker_quota_total_c4 (cfg : RunConfig) (hc : 0 < cfg.c) :
    (∀ wid err k dur, workerContinue (cfg.n / cfg.c) wid err k dur = true ↔
      k < cfg.n / cfg.c) ∧
    runConstConcurrencyWorkers cfg = .ok (some (mkWorkers cfg, cfg.n / cfg.c)) ∧
    totalIssuedCalls cfg = cfg.c * (cfg.n / cfg.c) ∧
    totalIssuedCalls cfg + cfg.n % cfg.c = cfg.n := by
  have hc' : cfg.c ≠ 0 := by omega
  have hrun : runConstConcurrencyWorkers cfg =
      .ok (some (mkWorkers cfg, cfg.n / cfg.c)) := by
    simp [runConstConcurrencyWorkers, goDiv, hc']
  have htot : totalIssuedCalls cfg = cfg.c * (cfg.n / cfg.c) := by
    unfold totalIssuedCalls
    rw [hrun]
    have heach : ∀ w ∈ mkWorkers cfg,
        workerIssuedCalls cfg (cfg.n / cfg.c) w = cfg.n / cfg.c := by
      intro w _
      unfold workerIssuedCalls workerContinue
      exact runWorkerCalls_quota (cfg.n / cfg.c) cfg.n 0 (Nat.zero_le _)
        (by simpa using Nat.div_le_self cfg.n cfg.c)
    show ((mkWorkers cfg).map (workerIssuedCalls cfg (cfg.n / cfg.c))).sum =
      cfg.c * (cfg.n / cfg.c)
    rw [sum_map_const_on (cfg.n / cfg.c) (mkWorkers cfg) _ heach]
    rw [mkWorkers, mkWorkersFrom_length cfg cfg.c 0 0]
  refine ⟨?_, hrun, htot, ?_⟩
  · intro wid err k dur
    simp [workerContinue]
  · rw [htot]
    exact Nat.div_add_mod cfg.n cfg.c

/-- Witness for claim C4: 103 requests over 10 workers; each worker gets
quota 10, 100 calls are issued in total and the remainder 3 is dropped. -/
theorem worker_quota_total_c4_witness :
    (∀ wid err k dur, workerContinue (quotaConfig.n / quotaConfig.c) wid err k dur = true ↔
      k < quotaConfig.n / quotaConfig.c) ∧
    runConstConcurrencyWorkers quotaConfig =
      .ok (some (mkWorkers quotaConfig, quotaConfig.n / quotaConfig.c)) ∧
    totalIssuedCalls quotaConfig = quotaConfig.c * (quotaConfig.n / quotaConfig.c) ∧
    totalIssuedCalls quotaConfig + quotaConfig.n % quotaConfig.c = quotaConfig.n :=
  worker_quota_total_c4 quotaConfig (by decide)

/-- Element `j` of the worker-creation loop, starting from concurrency
counter `i` and in-range connection counter `n`: the connection counter
advances by one per worker, modulo `nConns`. -/
theorem mkWorkersFrom_get (cfg : RunConfig) (hnc : 0 < cfg.nConns) :
    ∀ (rem i n j : Nat), n < cfg.nConns → j < rem →
      (mkWorkersFrom cfg rem i n).get? j =
        some { stubIdx := (n + j) % cfg.nConns,
               workerID := mkWorkerID cfg.name (i + j) ((n + j) % cfg.nConns) } := by
  intro rem
  induction rem with
  | zero => intro i n j _ hj; omega
  | succ rem ih =>
    intro i n j hn hj
    cases j with
    | zero =>
      simp only [mkWorkersFrom, List.get?_cons_zero, Nat.add_zero]
      rw [Nat.mod_eq_of_lt hn]
    | succ j =>
      have hwrap : (if n + 1 = cfg.nConns then 0 else n + 1) = (n + 1) % cfg.nConns := by
        by_cases h : n + 1 = cfg.nConns
        · simp [h, Nat.mod_self]
        · have hlt : n + 1 < cfg.nConns := by omega
          simp [h, Nat.mod_eq_of_lt hlt]
      simp only [mkWorkersFrom, List.get?_cons_succ]
      rw [hwrap, ih (i + 1) ((n + 1) % cfg.nConns) j (Nat.mod_lt _ hnc) (by omega)]
      have h2 : i + 1 + j = i + (j + 1) := by omega
      have h3 : n + 1 + j = n + (j + 1) := by omega
      rw [Nat.mod_add_mod, h2, h3]

/-- Claim C5: with positive concurrency and at least one connection, worker
`i` of the constant-concurrency pool is bound to stub index `i mod nConns` —
and stub `j` is the caller handle built on connection `j` (requester.go:
153-157), so worker `i` uses connection `i mod nConns` — and its identity
string is the composite of the optional run-name prefix, the concurrency
index `i` and the assigned connection index `i mod nConns`. -/
theorem worker_binding_c5 (cfg : RunConfig) (conns : List Nat) (i : Nat)
    (hc : 0 < cfg.c) (hnc : 0 < cfg.nConns) (hi : i < cfg.c) :
    runConstConcurrencyWorkers cfg = .ok (some (mkWorkers cfg, cfg.n / cfg.c)) ∧
    (mkWorkers cfg).get? i =
      some { stubIdx := i % cfg.nConns,
             workerID := mkWorkerID cfg.name i (i % cfg.nConns) } ∧
    mkWorkerID cfg.name i (i % cfg.nConns) =
      (if cfg.name.length > 0 then cfg.name ++ ":" else "") ++
        ("g" ++ Nat.repr i ++ "c" ++ Nat.repr (i % cfg.nConns)) ∧
    (buildStubs conns).get? (i % cfg.nConns) = conns.get? (i % cfg.nConns) := by
  have hc' : cfg.c ≠ 0 := by omega
  refine ⟨?_, ?_, ?_, ?_⟩
  · simp [runConstConcurrencyWorkers, goDiv, hc']
  · have := mkWorkersFrom_get cfg hnc cfg.c 0 0 i hnc hi
    simpa [mkWorkers] using this
  · unfold mkWorkerID
    by_cases h : cfg.name.length > 0
    · simp only [if_pos h]
    · simp only [if_neg h]
      rw [String.empty_append]
  · simp [buildStubs]

end GhzRunner

namespace GhzRunner

/-! ## Claim C5 witness and claim C6 -/

/-- Witness for claim C5: five workers over two connections with run name
`run`; worker 3 is bound to stub/connection 1 and named `run:g3c1`. -/
theorem worker_binding_c5_witness :
    runConstConcurrencyWorkers bindConfig =
      .ok (some (mkWorkers bindConfig, bindConfig.n / bindConfig.c)) ∧
    (mkWorkers bindConfig).get? 3 =
      some { stubIdx := 3 % bindConfig.nConns,
             workerID := mkWorkerID bindConfig.name 3 (3 % bindConfig.nConns) } ∧
    mkWorkerID bindConfig.name 3 (3 % bindConfig.nConns) =
      (if bindConfig.name.length > 0 then bindConfig.name ++ ":" else "") ++
        ("g" ++ Nat.repr 3 ++ "c" ++ Nat.repr (3 % bindConfig.nConns)) ∧
    (buildStubs [10, 11]).get? (3 % bindConfig.nConns) =
      [10, 11].get? (3 % bindConfig.nConns) :=
  worker_binding_c5 bindConfig [10, 11] 3 (by decide) (by decide) (by decide)

/-- The body of `finishWorkers` for one worker whose channel is open: an
active worker is marked inactive and its channel receives exactly one more
value; an inactive worker is left untouched. -/
theorem finishOne_eq (w : WorkerSync) (hw : w.closed = false) :
    finishOne w =
      .ok (if w.active then { w with active := false, signals := w.signals + 1 }
           else w) := by
  unfold finishOne sendDone
  by_cases ha : w.active
  · simp [ha, hw]
  · simp [ha]

/-- `finishWorkers` never faults on invariant-respecting workers and
preserves the invariant. -/
theorem finishWorkers_winv : ∀ (ws : List WorkerSync), (∀ w ∈ ws, WInv w) →
    ∃ ws', finishWorkers ws = .ok ws' ∧ ∀ w ∈ ws', WInv w := by
  intro ws
  induction ws with
  | nil => exact fun _ => ⟨[], rfl, by simp⟩
  | cons w ws ih =>
    intro h
    obtain ⟨hc, hs, ha⟩ := h w (by simp)
    have heq := finishOne_eq w hc
    obtain ⟨ws', h1, h2⟩ := ih (fun x hx => h x (by simp [hx]))
    refine ⟨(if w.active then { w with active := false, signals := w.signals + 1 }
             else w) :: ws', ?_, ?_⟩
    · simp [finishWorkers, heq, h1]
    · intro x hx
      rcases List.mem_cons.mp hx with h3 | h3
      · subst h3
        by_cases hact : w.active
        · simp only [if_pos hact]
          refine ⟨hc, ?_, ?_⟩
          · have := ha hact
            simp [this]
          · intro hcontra
            simp at hcontra
        · simp only [if_neg hact]
          exact ⟨hc, hs, ha⟩
      · exact h2 x h3

/-- Natural completion of a worker preserves the invariant. -/
theorem markComplete_winv : ∀ (ws : List WorkerSync) (i : Nat),
    (∀ w ∈ ws, WInv w) → ∀ w ∈ markComplete i ws, WInv w := by
  intro ws
  induction ws with
  | nil =>
    intro i _ w hw
    simp [markComplete] at hw
  | cons a ws ih =>
    intro i h w hw
    cases i with
    | zero =>
      simp only [markComplete] at hw
      rcases List.mem_cons.mp hw with h1 | h1
      · obtain ⟨hc, hs, _⟩ := h a (by simp)
        rw [h1]
        refine ⟨hc, hs, ?_⟩
        intro hcontra
        simp at hcontra
      · exact h w (List.mem_cons_of_mem a h1)
    | succ i =>
      simp only [markComplete] at hw
      rcases List.mem_cons.mp hw with h1 | h1
      · rw [h1]
        exact h a (by simp)
      · exact ih i (fun x hx => h x (List.mem_cons_of_mem a hx)) w h1

/-- Closing every worker's channel does not change the signal counts. -/
theorem closeAllDone_signals (ws : List WorkerSync) (h : ∀ w ∈ ws, WInv w) :
    ∀ w ∈ closeAllDone ws, w.signals ≤ 1 := by
  intro w hw
  rcases List.mem_map.mp hw with ⟨x, hx, rfl⟩
  exact (h x hx).2.1

/-- The pool's select loop never sends on a closed channel (it cannot fault)
and leaves every worker with at most one received stop value, whatever the
interleaving of stop values, natural completions and the final done event. -/
theorem poolLoop_no_panic : ∀ (tr : List PoolEvent) (ws : List WorkerSync),
    (∀ w ∈ ws, WInv w) →
    ∃ ws', poolLoop ws tr = .ok ws' ∧ ∀ w ∈ ws', w.signals ≤ 1 := by
  intro tr
  induction tr with
  | nil => exact fun ws h => ⟨ws, rfl, fun w hw => (h w hw).2.1⟩
  | cons ev rest ih =>
    intro ws h
    cases ev with
    | stop =>
      obtain ⟨ws₁, h1, h2⟩ := finishWorkers_winv ws h
      obtain ⟨ws', h3, h4⟩ := ih ws₁ h2
      exact ⟨ws', by simp [poolLoop, h1, h3], h4⟩
    | complete i =>
      obtain ⟨ws', h3, h4⟩ := ih (markComplete i ws) (markComplete_winv ws i h)
      exact ⟨ws', by simp [poolLoop, h3], h4⟩
    | done => exact ⟨closeAllDone ws, rfl, closeAllDone_signals ws h⟩

/-- Freshly created workers respect the invariant. -/
theorem initWorkers_winv (c : Nat) : ∀ w ∈ initWorkers c, WInv w := by
  intro w hw
  rw [initWorkers] at hw
  have := List.eq_of_mem_replicate hw
  subst this
  exact ⟨rfl, by decide, fun _ => rfl⟩

/-- Claim C6: over every event trace interleaving stop values, natural
completions and the final done event, the pool's select loop completes
without ever sending on a closed channel — every worker's `done` channel is
closed only in the terminal done branch, after all stop signals — and every
worker's channel receives at most one stop value; moreover a single
`finishWorkers` visit signals and deactivates exactly the workers whose
active flag is set, skipping the already-inactive ones. -/
theorem stop_signal_once_c6 (c : Nat) (tr : List PoolEvent) (w : WorkerSync)
    (hw : w.closed = false) :
    (∃ ws', poolLoop (initWorkers c) tr = .ok ws' ∧ ∀ x ∈ ws', x.signals ≤ 1) ∧
    finishOne w =
      .ok (if w.active then { w with active := false, signals := w.signals + 1 }
           else w) :=
  ⟨poolLoop_no_panic tr (initWorkers c) (initWorkers_winv c), finishOne_eq w hw⟩

/-- Witness for claim C6: two workers, a stop, a natural completion, a
second stop and the final done event. -/
theorem stop_signal_once_c6_witness :
    (∃ ws', poolLoop (initWorkers 2)
        [PoolEvent.stop, PoolEvent.complete 0, PoolEvent.stop, PoolEvent.done] =
        .ok ws' ∧ ∀ x ∈ ws', x.signals ≤ 1) ∧
    finishOne { active := true, signals := 0, closed := false } =
      .ok (if ({ active := true, signals := 0, closed := false } : WorkerSync).active
           then { ({ active := true, signals := 0, closed := false } : WorkerSync) with
                  active := false,
                  signals :=
                    ({ active := true, signals := 0, closed := false } : WorkerSync).signals + 1 }
           else { active := true, signals := 0, closed := false }) :=
  stop_signal_once_c6 2
    [PoolEvent.stop, PoolEvent.complete 0, PoolEvent.stop, PoolEvent.done]
    { active := true, signals := 0, closed := false } rfl

end GhzRunner

namespace GhzRunner

/-! ## Claims C7, C8, C10 -/

/-- After `closeClientConns` the pool holds no connections. -/
theorem closeClientConns_conns (t : PoolState) : poolConns (closeClientConns t) = [] := by
  unfold closeClientConns
  cases hc : t.conns with
  | none => simp [poolConns, hc]
  | some cs => simp [poolConns]

/-- `closeClientConns` closes exactly the connections the pool held. -/
theorem closeClientConns_closedIds (t : PoolState) :
    (closeClientConns t).closedIds = t.closedIds ++ poolConns t := by
  unfold closeClientConns
  cases hc : t.conns with
  | none => simp [poolConns, hc]
  | some cs => simp [poolConns, hc]

/-- `closeClientConns` does not touch the taps. -/
theorem closeClientConns_handlers (t : PoolState) :
    (closeClientConns t).handlers = t.handlers := by
  unfold closeClientConns
  cases hc : t.conns with
  | none => rfl
  | some cs => rfl

/-- Claim C7: the stop branch of `Run` records the received reason and
forwards exactly one value into the pool's stop channel; then, under policy
`close`, all connections are closed (and the taps untouched); under policy
`ignore`, every tap's `Ignore` flag is set and then all connections are
closed; under any other policy the pool is left untouched. -/
theorem run_stop_policy_c7 (cfg : RunConfig) (reason : StopReason) (s : OrchState) :
    (runOnStop cfg reason s).stopReason = reason ∧
    (runOnStop cfg reason s).stopSignals = s.stopSignals + 1 ∧
    (cfg.zstop = "close" →
      poolConns (runOnStop cfg reason s).pool = [] ∧
      (runOnStop cfg reason s).pool.closedIds = s.pool.closedIds ++ poolConns s.pool ∧
      (runOnStop cfg reason s).pool.handlers = s.pool.handlers) ∧
    (cfg.zstop = "ignore" →
      (∀ h ∈ (runOnStop cfg reason s).pool.handlers, h.ignore = true) ∧
      poolConns (runOnStop cfg reason s).pool = [] ∧
      (runOnStop cfg reason s).pool.closedIds = s.pool.closedIds ++ poolConns s.pool) ∧
    (cfg.zstop ≠ "close" → cfg.zstop ≠ "ignore" →
      (runOnStop cfg reason s).pool = s.pool) := by
  refine ⟨?_, ?_, ?_, ?_, ?_⟩
  · unfold runOnStop
    split_ifs <;> rfl
  · unfold runOnStop
    split_ifs <;> rfl
  · intro h1
    have hr : runOnStop cfg reason s =
        { pool := closeClientConns s.pool, stopReason := reason,
          stopSignals := s.stopSignals + 1 } := by
      unfold runOnStop
      rw [if_pos h1]
    rw [hr]
    exact ⟨closeClientConns_conns s.pool, closeClientConns_closedIds s.pool,
      closeClientConns_handlers s.pool⟩
  · intro h2
    have hne : ¬cfg.zstop = "close" := by
      rw [h2]
      decide
    have hr : runOnStop cfg reason s =
        { pool := closeClientConns
            { s.pool with
              handlers := s.pool.handlers.map fun h => { h with ignore := true } },
          stopReason := reason, stopSignals := s.stopSignals + 1 } := by
      unfold runOnStop
      rw [if_neg hne, if_pos h2]
    rw [hr]
    refine ⟨?_, closeClientConns_conns _, ?_⟩
    · intro h hh
      rw [closeClientConns_handlers] at hh
      rcases List.mem_map.mp hh with ⟨x, _, rfl⟩
      rfl
    · rw [closeClientConns_closedIds]
      rfl
  · intro hne1 hne2
    unfold runOnStop
    rw [if_neg hne1, if_neg hne2]

/-- Witness for claim C7: under policy `close`, an external stop records its
reason, signals the pool once, and empties the one-connection pool. -/
theorem run_stop_policy_c7_witness :
    (runOnStop closePolicyConfig (StopReason.external "sigint") oneOrchState).stopReason =
      StopReason.external "sigint" ∧
    (runOnStop closePolicyConfig (StopReason.external "sigint") oneOrchState).stopSignals =
      oneOrchState.stopSignals + 1 ∧
    poolConns (runOnStop closePolicyConfig (StopReason.external "sigint") oneOrchState).pool =
      [] :=
  ⟨(run_stop_policy_c7 closePolicyConfig (StopReason.external "sigint") oneOrchState).1,
   (run_stop_policy_c7 closePolicyConfig (StopReason.external "sigint") oneOrchState).2.1,
   ((run_stop_policy_c7 closePolicyConfig (StopReason.external "sigint")
      oneOrchState).2.2.1 rfl).1⟩

/-- `newRequester` reports exactly the resolution actions of its strategy
selection. -/
theorem newRequester_log (cfg : RunConfig) (env : ResolveEnv) :
    (newRequester cfg env).2 = (resolveMtd cfg env).2 := by
  unfold newRequester
  rcases h : resolveMtd cfg env with ⟨res, log⟩
  cases res with
  | error e => rfl
  | ok mtd =>
    cases hi : mtd.hasInputType with
    | false => simp [hi]
    | true =>
      simp only [hi]
      cases hc : computeArrayJSONData cfg mtd with
      | error e => simp [hc]
      | ok t => simp [hc]

/-- Claim C8: the descriptor is resolved by exactly one of three mutually
exclusive strategies in priority order — descriptor file, else descriptor-set
file, else live reflection over a transient connection dialed without a
stats handler and closed by the time construction returns — and a resolution
failure fails construction with that error, while a successful construction
holds a pristine pool: no load-generation connection was opened and no tap
registered. -/
theorem descriptor_resolution_c8 (cfg : RunConfig) (env : ResolveEnv) :
    (cfg.proto ≠ "" →
      (newRequester cfg env).2 =
        { used := [Strategy.protoFile], transientDialed := false,
          transientStats := false, transientClosed := false }) ∧
    (cfg.proto = "" → cfg.protoset ≠ "" →
      (newRequester cfg env).2 =
        { used := [Strategy.protosetFile], transientDialed := false,
          transientStats := false, transientClosed := false }) ∧
    (cfg.proto = "" → cfg.protoset = "" →
      (newRequester cfg env).2.used = [Strategy.reflection] ∧
      (newRequester cfg env).2.transientStats = false ∧
      (newRequester cfg env).2.transientDialed = true ∧
      (env.reflectDialOk = true → (newRequester cfg env).2.transientClosed = true)) ∧
    (∀ e, (resolveMtd cfg env).1 = .error e → (newRequester cfg env).1 = .error e) ∧
    (∀ r, (newRequester cfg env).1 = .ok r → r.pool = initPool) := by
  refine ⟨?_, ?_, ?_, ?_, ?_⟩
  · intro h
    rw [newRequester_log]
    unfold resolveMtd
    rw [if_pos h]
  · intro h1 h2
    rw [newRequester_log]
    unfold resolveMtd
    rw [if_neg (by simp [h1]), if_pos h2]
  · intro h1 h2
    rw [newRequester_log]
    unfold resolveMtd
    rw [if_neg (by simp [h1]), if_neg (by simp [h2])]
    cases hr : env.reflectDialOk with
    | false => simp
    | true => simp
  · intro e he
    unfold newRequester
    rcases h : resolveMtd cfg env with ⟨res, log⟩
    rw [h] at he
    cases res with
    | error e' =>
      simp only at he
      rw [he]
    | ok mtd => simp at he
  · intro r hr
    unfold newRequester at hr
    rcases h : resolveMtd cfg env with ⟨res, log⟩
    rw [h] at hr
    cases res with
    | error e => simp at hr
    | ok mtd =>
      cases hi : mtd.hasInputType with
      | false => simp [hi] at hr
      | true =>
        simp only [hi] at hr
        cases hc : computeArrayJSONData cfg mtd with
        | error e => simp [hc] at hr
        | ok t =>
          simp [hc] at hr
          rw [← hr]

/-- Witness for claim C8: an explicit descriptor file short-circuits the
other strategies; with neither file configured, reflection is used over a
transient, never-instrumented, closed connection. -/
theorem descriptor_resolution_c8_witness :
    (newRequester protoConfig allOkEnv).2 =
      { used := [Strategy.protoFile], transientDialed := false,
        transientStats := false, transientClosed := false } ∧
    (newRequester baseConfig allOkEnv).2.used = [Strategy.reflection] ∧
    (newRequester baseConfig allOkEnv).2.transientStats = false ∧
    (newRequester baseConfig allOkEnv).2.transientClosed = true :=
  ⟨(descriptor_resolution_c8 protoConfig allOkEnv).1 (by decide),
   ((descriptor_resolution_c8 baseConfig allOkEnv).2.2.1 rfl rfl).1,
   ((descriptor_resolution_c8 baseConfig allOkEnv).2.2.1 rfl rfl).2.1,
   ((descriptor_resolution_c8 baseConfig allOkEnv).2.2.1 rfl rfl).2.2.2 rfl⟩

/-- A trace without the pool-completion event leaves `Run`'s loop blocked. -/
theorem runLoop_no_done : ∀ (tr : List RunEvent) (cfg : RunConfig) (s : OrchState),
    (∀ ev ∈ tr, isDoneEvent ev = false) → runLoop cfg s tr = none := by
  intro tr
  induction tr with
  | nil => intro cfg s _; rfl
  | cons ev rest ih =>
    intro cfg s h
    cases ev with
    | stopRecv r =>
      simp only [runLoop]
      exact ih cfg _ fun x hx => h x (by simp [hx])
    | doneRecv e =>
      have := h (RunEvent.doneRecv e) (by simp)
      simp [isDoneEvent] at this

/-- If `Run`'s loop returned, its trace contained the pool-completion
event. -/
theorem runLoop_some_done : ∀ (tr : List RunEvent) (cfg : RunConfig) (s : OrchState)
    (res : StopReason × Option String),
    runLoop cfg s tr = some res → ∃ e, RunEvent.doneRecv e ∈ tr := by
  intro tr
  induction tr with
  | nil =>
    intro cfg s res h
    simp [runLoop] at h
  | cons ev rest ih =>
    intro cfg s res h
    cases ev with
    | stopRecv r =>
      simp only [runLoop] at h
      obtain ⟨e, he⟩ := ih cfg _ res h
      exact ⟨e, by simp [he]⟩
    | doneRecv e => exact ⟨e, by simp⟩

/-- Claim C10: `Run`'s event loop returns only through the pool-completion
event — receiving stop reasons alone never makes it return — and under a
strategy/schedule combination other than constant-concurrency/constant, the
spawned goroutine never sends a completion value, so on every trace
producible under such a configuration `Run` never returns. -/
theorem run_loop_termination_c10 (cfg : RunConfig) (s : OrchState) (tr : List RunEvent) :
    ((∀ ev ∈ tr, isDoneEvent ev = false) → runLoop cfg s tr = none) ∧
    (∀ res, runLoop cfg s tr = some res → ∃ e, RunEvent.doneRecv e ∈ tr) ∧
    ((cfg.loadStrategy ≠ StrategyConcurrency ∨ cfg.loadSchedule ≠ ScheduleConst) →
      doneProducible cfg tr → runLoop cfg s tr = none) := by
  refine ⟨runLoop_no_done tr cfg s, fun res => runLoop_some_done tr cfg s res, ?_⟩
  intro hne hprod
  apply runLoop_no_done
  intro ev hev
  cases hd : isDoneEvent ev with
  | false => rfl
  | true =>
    have hcc := hprod ev hev hd
    rcases hne with h | h
    · exact absurd hcc.1 h
    · exact absurd hcc.2 h

/-- Witness for claim C10: under the `line` strategy, a trace carrying one
external stop reason (the only events producible) leaves `Run` blocked. -/
theorem run_loop_termination_c10_witness :
    runLoop lineStrategyConfig oneOrchState
      [RunEvent.stopRecv (StopReason.external "sigint")] = none :=
  (run_loop_termination_c10 lineStrategyConfig oneOrchState
      [RunEvent.stopRecv (StopReason.external "sigint")]).2.2
    (Or.inl (by decide))
    (by
      intro ev hev hd
      simp only [List.mem_singleton] at hev
      subst hev
      simp [isDoneEvent] at hd)

end GhzRunner

namespace GhzRunner

/-! ## Claim C9 -/

/-- A successful unmarshal of the array elements yields one Go map per
element, in order. -/
theorem goUnmarshalElems_ok : ∀ (es : List JSONValue) (dat : List GoObjMap),
    goUnmarshalElems es = .ok dat →
    dat.length = es.length ∧
      ∀ i v, es.get? i = some v →
        ∃ g, elemToObjMap v = .ok g ∧ dat.get? i = some g := by
  intro es
  induction es with
  | nil =>
    intro dat h
    simp only [goUnmarshalElems] at h
    injection h with h'
    subst h'
    refine ⟨rfl, ?_⟩
    intro i v hi
    simp at hi
  | cons v rest ih =>
    intro dat h
    simp only [goUnmarshalElems] at h
    cases hv : elemToObjMap v with
    | error e =>
      rw [hv] at h
      simp at h
    | ok g =>
      rw [hv] at h
      cases hr : goUnmarshalElems rest with
      | error e =>
        rw [hr] at h
        simp at h
      | ok gs =>
        rw [hr] at h
        simp only at h
        injection h with h'
        subst h'
        obtain ⟨h1, h2⟩ := ih gs hr
        refine ⟨by simp [h1], ?_⟩
        intro i w hi
        cases i with
        | zero =>
          simp only [List.get?_cons_zero, Option.some.injEq] at hi
          subst hi
          exact ⟨g, hv, rfl⟩
        | succ i =>
          simp only [List.get?_cons_succ] at hi
          obtain ⟨g', hg1, hg2⟩ := h2 i w hi
          exact ⟨g', hg1, by simpa using hg2⟩

/-- Claim C9, counterexample. The payload `[1,2]` is non-binary, the method
is unary, and the payload's textual root is a JSON array; yet construction
does not pre-split it into a table of length 2 — unmarshaling the array into
maps fails on the number elements and `newRequester` fails with that error. -/
theorem array_json_table_c9_counterexample :
    computeArrayJSONData numsArrayConfig unaryMethod = .error ReqError.jsonUnmarshal := by
  rfl

/-- Claim C9 (amended): for a non-binary payload of a non-client-streaming
method whose textual root is a JSON array all of whose elements are objects
(or nulls), construction pre-splits the array into a table with one entry
per element, entry `i` being element `i` re-serialized through Go's map
round-trip; per-call selection with counter value `k` then uses entry
`k mod len`; an array containing any other element kind fails construction
with the unmarshal error (counterexample above); and for payloads that are
binary, client-streaming, or not arrays, the table is left nil. -/
theorem array_json_table_c9_amended (cfg : RunConfig) (mtd : MethodDescriptor)
    (es : List JSONValue) (dat : List GoObjMap)
    (hbin : cfg.binary = false) (hstream : mtd.clientStreaming = false)
    (hdata : cfg.data = JSONValue.arr es)
    (hun : goUnmarshalElems es = .ok dat) :
    computeArrayJSONData cfg mtd = .ok (some (dat.map marshalObjMap)) ∧
    (dat.map marshalObjMap).length = es.length ∧
    (∀ i v, es.get? i = some v →
      ∃ g, elemToObjMap v = .ok g ∧
        (dat.map marshalObjMap).get? i = some (marshalObjMap g)) ∧
    (0 < es.length → ∀ k, selectArrayJSONData (dat.map marshalObjMap) k =
      (dat.map marshalObjMap).get? (k % es.length)) ∧
    (∀ (cfg' : RunConfig) (mtd' : MethodDescriptor),
      (cfg'.binary = true ∨ mtd'.clientStreaming = true ∨
        ∀ es', cfg'.data ≠ JSONValue.arr es') →
      computeArrayJSONData cfg' mtd' = .ok none) := by
  obtain ⟨hlen, hidx⟩ := goUnmarshalElems_ok es dat hun
  refine ⟨?_, ?_, ?_, ?_, ?_⟩
  · unfold computeArrayJSONData
    rw [hbin, hstream, hdata]
    simp [render, goIndexRuneZero, goUnmarshalArrObjMap, hun]
  · simp [hlen]
  · intro i v hi
    obtain ⟨g, hg1, hg2⟩ := hidx i v hi
    refine ⟨g, hg1, ?_⟩
    rw [List.get?_map, hg2]
    rfl
  · intro hpos k
    unfold selectArrayJSONData
    rw [List.length_map, hlen]
    rw [if_neg (by omega)]
  · intro cfg' mtd' hcond
    rcases hcond with hb | hs | hna
    · unfold computeArrayJSONData
      simp [hb]
    · unfold computeArrayJSONData
      simp [hs]
    · cases hb : cfg'.binary with
      | true =>
        unfold computeArrayJSONData
        simp [hb]
      | false =>
        cases hs : mtd'.clientStreaming with
        | true =>
          unfold computeArrayJSONData
          simp [hs]
        | false =>
          have hfalse : goIndexRuneZero (render cfg'.data) = false := by
            cases hgi : goIndexRuneZero (render cfg'.data) with
            | false => rfl
            | true =>
              obtain ⟨es', heq⟩ := (goIndexRuneZero_render cfg'.data).mp hgi
              exact absurd heq (hna es')
          unfold computeArrayJSONData
          simp [hb, hs, hfalse]

/-- Witness for the amended claim C9: a two-element array payload holding
one object and one null is pre-split into the two entries given by
re-marshaling its elements, and counter value `k` selects entry `k mod 2`. -/
theorem array_json_table_c9_amended_witness :
    computeArrayJSONData objsArrayConfig unaryMethod =
      .ok (some (([some [("a", JSONValue.num 1)], none] : List GoObjMap).map
        marshalObjMap)) ∧
    (([some [("a", JSONValue.num 1)], none] : List GoObjMap).map marshalObjMap).length =
      [JSONValue.obj [("a", JSONValue.num 1)], JSONValue.jnull].length ∧
    (∀ i v, [JSONValue.obj [("a", JSONValue.num 1)], JSONValue.jnull].get? i = some v →
      ∃ g, elemToObjMap v = .ok g ∧
        (([some [("a", JSONValue.num 1)], none] : List GoObjMap).map
          marshalObjMap).get? i = some (marshalObjMap g)) ∧
    (0 < [JSONValue.obj [("a", JSONValue.num 1)], JSONValue.jnull].length →
      ∀ k, selectArrayJSONData
          (([some [("a", JSONValue.num 1)], none] : List GoObjMap).map marshalObjMap) k =
        (([some [("a", JSONValue.num 1)], none] : List GoObjMap).map
          marshalObjMap).get? (k % [JSONValue.obj [("a", JSONValue.num 1)],
            JSONValue.jnull].length)) ∧
    (∀ (cfg' : RunConfig) (mtd' : MethodDescriptor),
      (cfg'.binary = true ∨ mtd'.clientStreaming = true ∨
        ∀ es', cfg'.data ≠ JSONValue.arr es') →
      computeArrayJSONData cfg' mtd' = .ok none) :=
  array_json_table_c9_amended objsArrayConfig unaryMethod
    [JSONValue.obj [("a", JSONValue.num 1)], JSONValue.jnull]
    [some [("a", JSONValue.num 1)], none] rfl rfl rfl rfl

end GhzRunner
